import Mathlib

/-!
# Verification of the mode-switching coordinator (`bot/src/modes/mod.rs`)

This file gives a shallow embedding of the decision-mode coordinator
`ModeSwitchedBot` from `src/bot/src/modes/mod.rs` (the non-wasm build, which
is the one containing the clear-sequence mode) and proves the specified
properties about it.

The coordinator's collaborators — `libtetris::Board`, the General strategy
`normal::BotState`, the clear-sequence strategy `pcloop::PcLooper`, and the
`Options` struct — live outside the provided source tree, so they are
modelled from the specification: their interface shape is exactly the one
the coordinator uses, and behavior the spec leaves to the collaborator
(think outcomes, suggestion readiness, plan matching) is represented by
explicit outcome scripts carried in the configuration.
-/

namespace Modes

/-- Modelled from the spec: a piece identity (the seven tetromino kinds of
`libtetris::Piece`). -/
inductive Piece where
  | I | O | T | L | J | S | Z
deriving DecidableEq, Repr

/-- Modelled from the spec: a field row as a bitmask of occupied cells
(`u16` in `libtetris`), with `Row.EMPTY` the completely empty row. -/
abbrev Row : Type := Nat

/-- The completely empty row (`<u16 as Row>::EMPTY`). -/
def Row.EMPTY : Row := (0 : Nat)

/-- A completely full 10-column row, used by line clearing. -/
def Row.FULL : Row := (1023 : Nat)

/-- Modelled from the spec: a confirmed placement (`libtetris::FallingPiece`):
the piece kind (`mv.kind.0`) plus the concrete cells it occupies. -/
structure FallingPiece where
  kind : Piece
  cells : List (Nat × Nat)
deriving DecidableEq, Repr

/-- Modelled from the spec: the game-state snapshot (`libtetris::Board`):
the field (list of row bitmasks, index 0 being the row `get_row(0)` reads),
the ordered next-piece queue, the optional held piece, and the streak
counters (back-to-back bonus flag and combo counter). -/
structure Board where
  field : List Nat
  queue : List Piece
  hold_piece : Option Piece
  b2b_bonus : Bool
  combo : Nat
deriving DecidableEq, Repr

namespace Board

/-- Modelled from the spec: `Board::get_row` reads one row of the field. -/
def get_row (b : Board) (i : Nat) : Row := b.field.getD i (0 : Nat)

/-- Modelled from the spec: `Board::next_queue` iterates the known upcoming
pieces; the coordinator only takes its `count()`. -/
def next_queue (b : Board) : List Piece := b.queue

/-- Modelled from the spec: `Board::set_field` overwrites the field cells,
leaving queue, hold and counters alone. -/
def set_field (b : Board) (f : List Nat) : Board := { b with field := f }

/-- Modelled from the spec: `Board::add_next_piece` appends one piece to the
known queue. -/
def add_next_piece (b : Board) (p : Piece) : Board :=
  { b with queue := b.queue ++ [p] }

/-- Modelled from the spec: `Board::advance_queue` consumes the next queued
piece, returning it, or `none` when no piece is known. -/
def advance_queue (b : Board) : Option Piece × Board :=
  match b.queue with
  | [] => (none, b)
  | p :: rest => (some p, { b with queue := rest })

/-- Modelled from the spec: `Board::hold` stores `p` in the hold slot and
returns the previously held piece (the hold-swap side of playing a held
piece). -/
def hold (b : Board) (p : Piece) : Option Piece × Board :=
  (b.hold_piece, { b with hold_piece := some p })

/-- One step of writing a placed cell `(r, c)` into the field. -/
def setCell (f : List Nat) (rc : Nat × Nat) : List Nat :=
  f.set rc.1 (f.getD rc.1 (0 : Nat) ||| (1 <<< rc.2))

/-- Modelled from the spec: `Board::lock_piece` commits a confirmed placement
to the field — the placed cells become occupied, completed rows are cleared
(kept at constant field height), and the streak counters update: a clear
extends the combo, a four-line clear sets the back-to-back flag, a lesser
clear resets it, and no clear resets the combo. -/
def lock_piece (b : Board) (mv : FallingPiece) : Board :=
  let placed := mv.cells.foldl setCell b.field
  let kept := placed.filter (fun r => r ≠ Row.FULL)
  let cleared := placed.length - kept.length
  { b with
    field := kept ++ List.replicate cleared (0 : Nat)
    combo := if cleared > 0 then b.combo + 1 else 0
    b2b_bonus := if cleared = 4 then true else if cleared > 0 then false else b.b2b_bonus }

end Board

/-- Modelled from the spec: an opaque decided placement recommendation
(`crate::Move`). -/
abbrev Move : Type := Nat

/-- Modelled from the spec: the auxiliary explanatory information delivered
with a recommendation (`crate::Info`), which for the clear-sequence mode
wraps the strategy's own info (`Info::PcLoop(info)`). -/
inductive Info where
  | Normal (data : Nat)
  | PcLoop (data : Nat)
deriving DecidableEq, Repr

/-- Modelled from the spec: an opaque detached think-work descriptor
(`normal::Thinker`). -/
abbrev Thinker : Type := Nat

/-- Modelled from the spec: the outcome descriptor of one executed think unit
(`normal::ThinkResult`). -/
abbrev ThinkResult : Type := Nat

/-- Modelled from the spec: an opaque detached clear-sequence solve descriptor
(`pcloop::PcSolver`). -/
abbrev PcSolver : Type := Nat

/-- Modelled from the spec: the outcome of one `normal::BotState::think`
request — `Ok(thinker)` (a unit to schedule), `Err(false)` (no more
profitable work right now: stop this batch), or `Err(true)` (nothing this
round, keep going). -/
inductive ThinkRes where
  | ok (t : Thinker)
  | err (b : Bool)
deriving DecidableEq, Repr

/-- Modelled from the spec: the outcome of one `pcloop::PcLooper::suggest_move`
request — `Ok((mv, info))` (answer ready), `Err(false)` (not yet ready), or
`Err(true)` (position provably unsolvable). -/
inductive PcSugRes where
  | ok (mv : Move) (info : Nat)
  | err (b : Bool)
deriving DecidableEq, Repr

/-- Modelled from the spec: the General strategy's internals are out of the
coordinator's scope, so the behavior a freshly constructed
`normal::BotState` will exhibit at its interface is carried as explicit
outcome scripts. -/
structure NormalOracle where
  script : List ThinkRes
  suggests : List (Option (Move × Info))
  dead : Bool
deriving DecidableEq, Repr

/-- Modelled from the spec: the clear-sequence strategy's configuration
(`options.pcloop` payload), likewise carrying the scripted interface
behavior of a freshly constructed `pcloop::PcLooper`. -/
structure PcOracle where
  playScript : List Bool
  suggestScript : List PcSugRes
  thinkScript : List (Option PcSolver)
deriving DecidableEq, Repr

/-- Modelled from the spec: the immutable per-session configuration
(`crate::Options`): whether holding is enabled, the outstanding-work
ceiling (`threads`), the movement mode (opaque), whether the clear-sequence
strategy is enabled (`pcloop : Option _`), and the General oracle. -/
structure Options where
  use_hold : Bool
  threads : Nat
  mode : Nat
  pcloop : Option PcOracle
  normal : NormalOracle
deriving DecidableEq, Repr

/-- Modelled from the spec: an event forwarded into the General strategy
instance (recorded so forwarding is observable in the model). -/
inductive BotEvent where
  | reset (field : List Nat) (b2b : Bool) (combo : Nat)
  | newPiece (p : Piece)
  | advanceMove (mv : FallingPiece)
  | forceLine (path : List FallingPiece)
deriving DecidableEq, Repr

/-- Modelled from the spec: the General strategy instance
(`normal::BotState`): its own snapshot copy, the count of outstanding think
units, the scripted future interface outcomes, the terminal flag, and a log
of forwarded events. -/
structure BotState where
  board : Board
  outstanding_thinks : Nat
  script : List ThinkRes
  suggests : List (Option (Move × Info))
  dead : Bool
  events : List BotEvent
deriving DecidableEq, Repr

namespace BotState

/-- Modelled from the spec: `normal::BotState::new(board, options, 0)` —
a fresh General instance built from a snapshot copy, with zero outstanding
think units. -/
def new (board : Board) (options : Options) : BotState :=
  { board := board
    outstanding_thinks := 0
    script := options.normal.script
    suggests := options.normal.suggests
    dead := options.normal.dead
    events := [] }

/-- Modelled from the spec: `think()` asks for one incremental work unit;
on `Ok` the outstanding count rises by one. -/
def think (bot : BotState) : ThinkRes × BotState :=
  match bot.script with
  | [] => (.err false, bot)
  | r :: rest =>
    match r with
    | .ok t =>
      (.ok t, { bot with script := rest,
                         outstanding_thinks := bot.outstanding_thinks + 1 })
    | .err b => (.err b, { bot with script := rest })

/-- Modelled from the spec: `suggest_move(eval, book, incoming)` — either the
strategy can satisfy the pending request now, or not yet. -/
def suggest_move (bot : BotState) : Option (Move × Info) × BotState :=
  match bot.suggests with
  | [] => (none, bot)
  | s :: rest => (s, { bot with suggests := rest })

/-- Modelled from the spec: `finish_thinking(result)` reconciles one executed
think unit, so the outstanding count falls by one. -/
def finish_thinking (bot : BotState) (_r : ThinkResult) : BotState :=
  { bot with outstanding_thinks := bot.outstanding_thinks - 1 }

/-- Modelled from the spec: `reset(field, b2b, combo)` forwards a reset into
the General strategy so it recomputes incrementally. -/
def reset (bot : BotState) (field : List Nat) (b2b : Bool) (combo : Nat) : BotState :=
  { bot with board := { bot.board.set_field field with b2b_bonus := b2b, combo := combo }
             events := bot.events ++ [.reset field b2b combo] }

/-- Modelled from the spec: `add_next_piece` forwards a queue append. -/
def add_next_piece (bot : BotState) (p : Piece) : BotState :=
  { bot with board := bot.board.add_next_piece p
             events := bot.events ++ [.newPiece p] }

/-- Modelled from the spec: `advance_move` forwards a confirmed placement. -/
def advance_move (bot : BotState) (mv : FallingPiece) : BotState :=
  { bot with events := bot.events ++ [.advanceMove mv] }

/-- Modelled from the spec: `force_analysis_line` forwards a forced
continuation hint. -/
def force_analysis_line (bot : BotState) (path : List FallingPiece) : BotState :=
  { bot with events := bot.events ++ [.forceLine path] }

/-- Modelled from the spec: `is_dead()` reports an unrecoverable position. -/
def is_dead (bot : BotState) : Bool := bot.dead

end BotState

/-- Modelled from the spec: the clear-sequence strategy instance
(`pcloop::PcLooper`): its snapshot copy and settings, the scripted future
interface outcomes, and logs of forwarded pieces and delivered solutions. -/
structure PcLooper where
  board : Board
  hold_enabled : Bool
  mode : Nat
  playScript : List Bool
  suggestScript : List PcSugRes
  thinkScript : List (Option PcSolver)
  solutions : List (Option (List FallingPiece))
deriving DecidableEq, Repr

namespace PcLooper

/-- Modelled from the spec: `pcloop::PcLooper::new(board, hold, mode, cfg)`. -/
def new (board : Board) (hold_enabled : Bool) (mode : Nat) (cfg : PcOracle) : PcLooper :=
  { board := board
    hold_enabled := hold_enabled
    mode := mode
    playScript := cfg.playScript
    suggestScript := cfg.suggestScript
    thinkScript := cfg.thinkScript
    solutions := [] }

/-- Modelled from the spec: `add_next_piece` forwards a queue append. -/
def add_next_piece (bot : PcLooper) (p : Piece) : PcLooper :=
  { bot with board := bot.board.add_next_piece p }

/-- Modelled from the spec: `solution(result)` delivers one executed solve
result back to the strategy. -/
def solution (bot : PcLooper) (r : Option (List FallingPiece)) : PcLooper :=
  { bot with solutions := bot.solutions ++ [r] }

/-- Modelled from the spec: `play_move(mv)` reports whether the confirmed
placement was part of the strategy's committed plan. -/
def play_move (bot : PcLooper) (_mv : FallingPiece) : Bool × PcLooper :=
  match bot.playScript with
  | [] => (false, bot)
  | b :: rest => (b, { bot with playScript := rest })

/-- Modelled from the spec: `suggest_move()` — ready, not yet ready, or
provably unsolvable. -/
def suggest_move (bot : PcLooper) : PcSugRes × PcLooper :=
  match bot.suggestScript with
  | [] => (.err false, bot)
  | s :: rest => (s, { bot with suggestScript := rest })

/-- Modelled from the spec: `think()` yields at most one further exhaustive
solve unit, if search room remains. -/
def think (bot : PcLooper) : Option PcSolver × PcLooper :=
  match bot.thinkScript with
  | [] => (none, bot)
  | s :: rest => (s, { bot with thinkScript := rest })

end PcLooper

/-- The active strategy (`enum Mode` in `mod.rs`): exactly one of the two
strategy instances. -/
inductive Mode where
  | Normal (bot : BotState)
  | PcLoop (bot : PcLooper)
deriving DecidableEq, Repr

/-- Detachable work unit (`enum Task` in `mod.rs`). -/
inductive Task where
  | NormalThink (t : Thinker)
  | PcLoopSolve (s : PcSolver)
deriving DecidableEq, Repr

/-- Work result (`enum TaskResult` in `mod.rs`); the clear-sequence variant
carries an optional solved placement sequence. -/
inductive TaskResult where
  | NormalThink (r : ThinkResult)
  | PcLoopSolve (r : Option (List FallingPiece))
deriving DecidableEq, Repr

/-- Message protocol (`crate::BotMsg`), as consumed by
`ModeSwitchedBot::message`. -/
inductive BotMsg where
  | Reset (field : List Nat) (b2b : Bool) (combo : Nat)
  | NewPiece (piece : Piece)
  | SuggestMove (incoming : Nat)
  | PlayMove (mv : FallingPiece)
  | ForceAnalysisLine (path : List FallingPiece)
deriving DecidableEq, Repr

/-- The coordinator state (`struct ModeSwitchedBot` in `mod.rs`): active
mode, configuration, authoritative snapshot, and the pending-suggestion
flag `do_move`.  The opening book reference is opaque here. -/
structure ModeSwitchedBot where
  mode : Mode
  options : Options
  board : Board
  do_move : Option Nat
  book : Option Nat
deriving DecidableEq, Repr

/-- `can_pc_loop` from `mod.rs`: the eligibility predicate for the
clear-sequence strategy. -/
def can_pc_loop (board : Board) (hold_enabled : Bool) : Bool :=
  if board.get_row 0 ≠ Row.EMPTY then
    false
  else
    let pieces := board.next_queue.length
    if hold_enabled then
      let pieces := pieces + (if board.hold_piece.isSome then 1 else 0)
      decide (pieces ≥ 11)
    else
      decide (pieces ≥ 10)

namespace ModeSwitchedBot

/-- `ModeSwitchedBot::new` (non-wasm): start in `PcLoop` exactly when the
option is set, row 0 is empty and `can_pc_loop` holds; otherwise `Normal`.
The `options.pcloop.unwrap()` of the source is rendered by matching on the
option before testing the rest of the guard. -/
def new (board : Board) (options : Options) (book : Option Nat) : ModeSwitchedBot :=
  let mode :=
    match options.pcloop with
    | some cfg =>
      if board.get_row 0 = Row.EMPTY && can_pc_loop board options.use_hold then
        Mode.PcLoop (PcLooper.new board options.use_hold options.mode cfg)
      else
        Mode.Normal (BotState.new board options)
    | none => Mode.Normal (BotState.new board options)
  { mode := mode, options := options, board := board, do_move := none, book := book }

/-- `ModeSwitchedBot::task_complete`: route the result to the active
strategy when the variant tag matches; otherwise drop it. -/
def task_complete (st : ModeSwitchedBot) (result : TaskResult) : ModeSwitchedBot :=
  match st.mode with
  | Mode.Normal bot =>
    match result with
    | TaskResult.NormalThink r => { st with mode := Mode.Normal (bot.finish_thinking r) }
    | _ => st
  | Mode.PcLoop bot =>
    match result with
    | TaskResult.PcLoopSolve r => { st with mode := Mode.PcLoop (bot.solution r) }
    | _ => st

/-- `ModeSwitchedBot::message` (non-wasm).  The `PlayMove` arm unwraps
`advance_queue`, so an empty queue is a panic, rendered as `none`. -/
def message (st : ModeSwitchedBot) (msg : BotMsg) : Option ModeSwitchedBot :=
  match msg with
  | BotMsg.Reset field b2b combo =>
    let board := { st.board.set_field field with b2b_bonus := b2b, combo := combo }
    some (match st.mode with
      | Mode.Normal bot =>
        { st with board := board, mode := Mode.Normal (bot.reset field b2b combo) }
      | Mode.PcLoop _ =>
        { st with board := board, mode := Mode.Normal (BotState.new board st.options) })
  | BotMsg.NewPiece piece =>
    let board := st.board.add_next_piece piece
    some (match st.mode with
      | Mode.Normal bot =>
        match st.options.pcloop with
        | some cfg =>
          if can_pc_loop board st.options.use_hold then
            { st with board := board
                      mode := Mode.PcLoop
                        (PcLooper.new board st.options.use_hold st.options.mode cfg) }
          else
            { st with board := board, mode := Mode.Normal (bot.add_next_piece piece) }
        | none =>
          { st with board := board, mode := Mode.Normal (bot.add_next_piece piece) }
      | Mode.PcLoop bot =>
        { st with board := board, mode := Mode.PcLoop (bot.add_next_piece piece) })
  | BotMsg.SuggestMove incoming => some { st with do_move := some incoming }
  | BotMsg.PlayMove mv =>
    match st.board.advance_queue with
    | (none, _) => none
    | (some next, b1) =>
      let b2 :=
        if mv.kind ≠ next then
          match b1.hold next with
          | (none, bh) => (bh.advance_queue).2
          | (some _, bh) => bh
        else b1
      let board := b2.lock_piece mv
      some (match st.mode with
        | Mode.Normal bot =>
          match st.options.pcloop with
          | some cfg =>
            if can_pc_loop board st.options.use_hold then
              { st with board := board
                        mode := Mode.PcLoop
                          (PcLooper.new board st.options.use_hold st.options.mode cfg) }
            else
              { st with board := board, mode := Mode.Normal (bot.advance_move mv) }
          | none =>
            { st with board := board, mode := Mode.Normal (bot.advance_move mv) }
        | Mode.PcLoop bot =>
          match bot.play_move mv with
          | (true, bot1) => { st with board := board, mode := Mode.PcLoop bot1 }
          | (false, _) =>
            { st with board := board, mode := Mode.Normal (BotState.new board st.options) })
  | BotMsg.ForceAnalysisLine path =>
    some (match st.mode with
      | Mode.Normal bot =>
        { st with mode := Mode.Normal (bot.force_analysis_line path) }
      | Mode.PcLoop _ => st)

/-- The `for _ in 0..10` loop of the `Mode::Normal` arm of
`ModeSwitchedBot::think`: stop when the outstanding-work ceiling is
reached or the strategy says stop (`Err(false)`); skip on `Err(true)`. -/
def normalThinkLoop : Nat → BotState → Nat → List Task × BotState
  | 0, bot, _ => ([], bot)
  | n + 1, bot, threads =>
    if bot.outstanding_thinks ≥ threads then
      ([], bot)
    else
      match bot.think with
      | (ThinkRes.ok t, bot1) =>
        let (rest, bot2) := normalThinkLoop n bot1 threads
        (Task.NormalThink t :: rest, bot2)
      | (ThinkRes.err false, bot1) => ([], bot1)
      | (ThinkRes.err true, bot1) =>
        normalThinkLoop n bot1 threads

/-- `ModeSwitchedBot::think`.  The `send_move` callback is rendered as the
third component of the result: the recommendation delivered during this
call, if any. -/
def think (st : ModeSwitchedBot) :
    List Task × ModeSwitchedBot × Option (Move × Info) :=
  match st.mode with
  | Mode.Normal bot =>
    let (bot1, dm, sent) :=
      match st.do_move with
      | some _ =>
        match bot.suggest_move with
        | (some r, b1) => (b1, none, some r)
        | (none, b1) => (b1, st.do_move, none)
      | none => (bot, st.do_move, none)
    let (thinks, bot2) := normalThinkLoop 10 bot1 st.options.threads
    (thinks, { st with mode := Mode.Normal bot2, do_move := dm }, sent)
  | Mode.PcLoop bot =>
    match st.do_move with
    | some _ =>
      match bot.suggest_move with
      | (PcSugRes.ok mv info, bot1) =>
        let (solver, bot2) := bot1.think
        (solver.toList.map Task.PcLoopSolve,
         { st with mode := Mode.PcLoop bot2, do_move := none },
         some (mv, Info.PcLoop info))
      | (PcSugRes.err false, bot1) =>
        let (solver, bot2) := bot1.think
        (solver.toList.map Task.PcLoopSolve,
         { st with mode := Mode.PcLoop bot2 }, none)
      | (PcSugRes.err true, _) =>
        let nb := BotState.new st.board st.options
        let (r, nb1) := nb.think
        let thinks := match r with
          | ThinkRes.ok t => [Task.NormalThink t]
          | ThinkRes.err _ => []
        (thinks, { st with mode := Mode.Normal nb1 }, none)
    | none =>
      let (solver, bot1) := bot.think
      (solver.toList.map Task.PcLoopSolve,
       { st with mode := Mode.PcLoop bot1 }, none)

/-- `ModeSwitchedBot::is_dead`: terminal only in General mode. -/
def is_dead (st : ModeSwitchedBot) : Bool :=
  match st.mode with
  | Mode.Normal bot => bot.is_dead
  | Mode.PcLoop _ => false

/-- Repeated `think` calls with no `task_complete` in between, collecting
every work unit ever emitted (the setting of the admission-control
property). -/
def iterateThink : Nat → ModeSwitchedBot → List Task × ModeSwitchedBot
  | 0, st => ([], st)
  | n + 1, st =>
    let (tasks, st1, _) := st.think
    let (rest, st2) := iterateThink n st1
    (tasks ++ rest, st2)

end ModeSwitchedBot

/-- Whether the active mode is the General strategy. -/
def Mode.isNormal : Mode → Bool
  | Mode.Normal _ => true
  | Mode.PcLoop _ => false

/-- Whether the active mode is the clear-sequence strategy. -/
def Mode.isPcLoop : Mode → Bool
  | Mode.Normal _ => false
  | Mode.PcLoop _ => true

/-- Whether a result carries the General (think) variant tag. -/
def TaskResult.isNormalThink : TaskResult → Bool
  | TaskResult.NormalThink _ => true
  | TaskResult.PcLoopSolve _ => false

/-- Whether a result carries the clear-sequence (solve) variant tag. -/
def TaskResult.isPcLoopSolve : TaskResult → Bool
  | TaskResult.NormalThink _ => false
  | TaskResult.PcLoopSolve _ => true

/-! ### Concrete sample states used by the witnesses -/

/-- A General-strategy oracle whose first think request yields a unit. -/
def exOracle : NormalOracle :=
  { script := [ThinkRes.ok 7, ThinkRes.err true, ThinkRes.ok 8, ThinkRes.err false]
    suggests := [none, some (3, Info.Normal 1)]
    dead := false }

/-- A clear-sequence oracle whose first suggestion request reports the
position provably unsolvable. -/
def exPcOracle : PcOracle :=
  { playScript := [true, false]
    suggestScript := [PcSugRes.err true]
    thinkScript := [some 5, none] }

/-- A short-queue board (clear-sequence ineligible). -/
def exBoard : Board :=
  { field := [0, 0, 0, 0]
    queue := [Piece.I, Piece.O, Piece.T]
    hold_piece := none
    b2b_bonus := false
    combo := 0 }

/-- An empty-top board with ten known pieces (clear-sequence eligible
without hold). -/
def exBoardPc : Board :=
  { field := [0, 0, 0, 0]
    queue := [Piece.I, Piece.O, Piece.T, Piece.L, Piece.J,
              Piece.S, Piece.Z, Piece.I, Piece.O, Piece.T]
    hold_piece := none
    b2b_bonus := false
    combo := 0 }

/-- Options with the clear-sequence strategy enabled and holding on. -/
def exOptions : Options :=
  { use_hold := true, threads := 2, mode := 0
    pcloop := some exPcOracle, normal := exOracle }

/-- Options with the clear-sequence strategy enabled and holding off. -/
def exOptionsNoHold : Options :=
  { use_hold := false, threads := 2, mode := 0
    pcloop := some exPcOracle, normal := exOracle }

/-- Options with the clear-sequence strategy disabled. -/
def exOptionsNoPc : Options :=
  { use_hold := true, threads := 2, mode := 0
    pcloop := none, normal := exOracle }

/-- A coordinator that starts (and stays) in General mode. -/
def exStNormal : ModeSwitchedBot := ModeSwitchedBot.new exBoard exOptions none

/-- A coordinator that starts in clear-sequence mode. -/
def exStPc : ModeSwitchedBot := ModeSwitchedBot.new exBoardPc exOptionsNoHold none

/-! ### The claims -/

/-- C1. A `TaskResult` whose variant tag does not match the active mode
(a `NormalThink` result in `PcLoop` mode, or a `PcLoopSolve` result in
`Normal` mode) is silently dropped by `task_complete`: the whole coordinator
state — snapshot, mode and pending-suggestion flag included — is unchanged. -/
theorem claim_C1 (st : ModeSwitchedBot) (result : TaskResult)
    (h : (st.mode.isNormal = true ∧ result.isPcLoopSolve = true) ∨
         (st.mode.isPcLoop = true ∧ result.isNormalThink = true)) :
    st.task_complete result = st := by
  cases hm : st.mode <;> cases hr : result <;>
    simp [hm, hr, Mode.isNormal, Mode.isPcLoop,
      TaskResult.isNormalThink, TaskResult.isPcLoopSolve] at h ⊢ <;>
    simp [ModeSwitchedBot.task_complete, hm]

/-- Witness for C1: dropping a stale clear-sequence result while in General
mode leaves the concrete sample state untouched. -/
theorem claim_C1_witness :
    exStNormal.task_complete (TaskResult.PcLoopSolve none) = exStNormal :=
  claim_C1 exStNormal (TaskResult.PcLoopSolve none) (Or.inl ⟨by decide, by decide⟩)

/-- C3. The eligibility predicate `can_pc_loop` is (by construction) a pure
function of the board and hold flag, and holds iff row 0 of the field is
completely empty and the contributing piece count (queue length, plus one
for a held piece when holding is enabled) reaches the threshold — 10
without hold, 11 with hold. -/
theorem claim_C3 (board : Board) (hold_enabled : Bool) :
    can_pc_loop board hold_enabled = true ↔
      (board.get_row 0 = Row.EMPTY ∧
        board.queue.length + (if hold_enabled && board.hold_piece.isSome then 1 else 0)
          ≥ (if hold_enabled then 11 else 10)) := by
  cases hold_enabled <;>
    simp [can_pc_loop, Board.next_queue] <;>
    by_cases hr : board.get_row 0 = Row.EMPTY <;>
    simp [hr] <;> cases board.hold_piece <;> simp

/-- C5. `ModeSwitchedBot::new` selects the clear-sequence mode iff the
strategy is enabled in the options, row 0 of the field is empty, and
`can_pc_loop` holds; otherwise the initial mode is General. -/
theorem claim_C5 (board : Board) (options : Options) (book : Option Nat) :
    (ModeSwitchedBot.new board options book).mode.isPcLoop = true ↔
      (options.pcloop.isSome = true ∧ board.get_row 0 = Row.EMPTY ∧
        can_pc_loop board options.use_hold = true) := by
  cases hp : options.pcloop <;>
    simp [ModeSwitchedBot.new, hp, Mode.isPcLoop] <;>
    by_cases hr : board.get_row 0 = Row.EMPTY <;>
    by_cases hc : can_pc_loop board options.use_hold = true <;>
    simp [hr, hc, Mode.isPcLoop]

/-- C6. Handling `Reset` while in clear-sequence mode overwrites the
snapshot's field and streak counters with the payload and unconditionally
replaces the mode with a freshly constructed General instance built from
the new snapshot, so the active mode immediately afterward is General. -/
theorem claim_C6 (st : ModeSwitchedBot) (f : List Nat) (b2b : Bool) (combo : Nat)
    (h : st.mode.isPcLoop = true) :
    st.message (BotMsg.Reset f b2b combo) =
      some { st with
        board := { st.board with field := f, b2b_bonus := b2b, combo := combo }
        mode := Mode.Normal (BotState.new
          { st.board with field := f, b2b_bonus := b2b, combo := combo }
          st.options) } := by
  cases hm : st.mode with
  | Normal bot => simp [hm, Mode.isPcLoop] at h
  | PcLoop bot => simp [ModeSwitchedBot.message, hm, Board.set_field]

/-- Witness for C6: a concrete `Reset` delivered to the sample
clear-sequence coordinator lands it in General mode with the payload
installed. -/
theorem claim_C6_witness :
    exStPc.message (BotMsg.Reset [7, 0] true 3) =
      some { exStPc with
        board := { exStPc.board with field := [7, 0], b2b_bonus := true, combo := 3 }
        mode := Mode.Normal (BotState.new
          { exStPc.board with field := [7, 0], b2b_bonus := true, combo := 3 }
          exStPc.options) } :=
  claim_C6 exStPc [7, 0] true 3 (by decide)

/-- C9. The `PlayMove` arm unwraps `advance_queue`: under the implicit
precondition that the queue is non-empty the failure branch is unreachable
and handling succeeds, while on an empty queue the handler is not total
(the unwrap panics, rendered here as `none`). -/
theorem claim_C9 (st : ModeSwitchedBot) (mv : FallingPiece) :
    (st.board.queue ≠ [] → (st.message (BotMsg.PlayMove mv)).isSome = true) ∧
    (st.board.queue = [] → st.message (BotMsg.PlayMove mv) = none) := by
  constructor
  · intro hq
    cases hq2 : st.board.queue with
    | nil => exact absurd hq2 hq
    | cons next rest =>
      simp [ModeSwitchedBot.message, Board.advance_queue, hq2]
  · intro hq
    simp [ModeSwitchedBot.message, Board.advance_queue, hq]

/-- Witness for C9: with a non-empty queue the concrete sample handles a
`PlayMove`; with the queue exhausted it panics (`none`). -/
theorem claim_C9_witness :
    ((exStPc.message (BotMsg.PlayMove { kind := Piece.I, cells := [] })).isSome = true) ∧
    ((ModeSwitchedBot.new { exBoard with queue := [] } exOptions none).message
        (BotMsg.PlayMove { kind := Piece.I, cells := [] }) = none) :=
  ⟨(claim_C9 exStPc { kind := Piece.I, cells := [] }).1 (by decide),
   (claim_C9 (ModeSwitchedBot.new { exBoard with queue := [] } exOptions none)
      { kind := Piece.I, cells := [] }).2 (by decide)⟩

/-- C10. The pending-suggestion flag `do_move` is written only by
`SuggestMove`: every other message leaves it unchanged (including any mode
switch it triggers), while `SuggestMove id` overwrites it with `some id`
and changes nothing else in the coordinator state. -/
theorem claim_C10 :
    (∀ (st : ModeSwitchedBot) (msg : BotMsg) (st1 : ModeSwitchedBot),
      (∀ i, msg ≠ BotMsg.SuggestMove i) →
      st.message msg = some st1 → st1.do_move = st.do_move) ∧
    (∀ (st : ModeSwitchedBot) (i : Nat),
      st.message (BotMsg.SuggestMove i) = some { st with do_move := some i }) := by
  constructor
  · intro st msg st1 hnot h
    cases msg with
    | Reset f b2b combo =>
      cases hm : st.mode <;>
        simp [ModeSwitchedBot.message, hm] at h <;>
        cases h <;> rfl
    | NewPiece piece =>
      cases hm : st.mode with
      | Normal bot =>
        cases hp : st.options.pcloop <;>
          simp [ModeSwitchedBot.message, hm, hp] at h <;>
          cases h <;> (repeat' split) <;> rfl
      | PcLoop bot =>
        simp [ModeSwitchedBot.message, hm] at h
        cases h <;> rfl
    | SuggestMove i => exact absurd rfl (hnot i)
    | PlayMove mv =>
      rcases hq : st.board.advance_queue with ⟨onext, b1⟩
      cases onext with
      | none => simp [ModeSwitchedBot.message, hq] at h
      | some next =>
        cases hm : st.mode with
        | Normal bot =>
          cases hp : st.options.pcloop <;>
            simp [ModeSwitchedBot.message, hq, hm, hp] at h <;>
            cases h <;> (repeat' split) <;> rfl
        | PcLoop bot =>
          simp [ModeSwitchedBot.message, hq, hm] at h <;>
            cases h <;> (repeat' split) <;> rfl
    | ForceAnalysisLine path =>
      cases hm : st.mode <;>
        simp [ModeSwitchedBot.message, hm] at h <;>
        cases h <;> rfl
  · intro st i
    simp [ModeSwitchedBot.message]

/-- Witness for C10: a concrete `NewPiece` preserves the sample state's
pending flag, and a concrete `SuggestMove` sets it and nothing else. -/
theorem claim_C10_witness :
    (∃ st1, exStPc.message (BotMsg.NewPiece Piece.I) = some st1 ∧
      st1.do_move = exStPc.do_move) ∧
    exStPc.message (BotMsg.SuggestMove 4) = some { exStPc with do_move := some 4 } := by
  refine ⟨⟨_, rfl, ?_⟩, claim_C10.2 exStPc 4⟩
  exact claim_C10.1 exStPc (BotMsg.NewPiece Piece.I) _ (fun i h => by cases h) rfl

/-- C4. Handling `PlayMove` with a non-empty queue consumes exactly the
queue head; when the confirmed piece differs from that head the hold swap
stores the head in the hold slot, and the queue is advanced a second time
only when no piece was previously held; the placement is then committed to
the field exactly once, by a single `lock_piece` applied to exactly the
queue-adjusted board. -/
theorem claim_C4 (st : ModeSwitchedBot) (mv : FallingPiece)
    (next : Piece) (rest : List Piece)
    (h : st.board.queue = next :: rest) :
    ∃ st1, st.message (BotMsg.PlayMove mv) = some st1 ∧
      st1.board =
        Board.lock_piece
          (if mv.kind = next then { st.board with queue := rest }
           else if st.board.hold_piece = none then
             { st.board with queue := rest.tail, hold_piece := some next }
           else { st.board with queue := rest, hold_piece := some next })
          mv := by
  have hq : st.board.advance_queue = (some next, { st.board with queue := rest }) := by
    simp [Board.advance_queue, h]
  simp only [ModeSwitchedBot.message, hq]
  refine ⟨_, rfl, ?_⟩
  by_cases hk : mv.kind = next <;>
    cases hh : st.board.hold_piece <;>
    cases hm : st.mode <;>
    cases hp : st.options.pcloop <;>
    cases rest <;>
    simp [hk, hh, hm, hp, Board.hold, Board.advance_queue] <;>
    (repeat' split) <;> rfl

/-- Witness for C4: a concrete hold-using `PlayMove` (confirmed piece `O`
against queue head `I`, nothing previously held) advances the queue twice,
stores `I` in the hold slot, and commits the placement once. -/
theorem claim_C4_witness :
    ∃ st1, exStPc.message (BotMsg.PlayMove { kind := Piece.O, cells := [(0, 1)] })
        = some st1 ∧
      st1.board =
        Board.lock_piece
          { exStPc.board with
            queue := [Piece.T, Piece.L, Piece.J, Piece.S, Piece.Z,
                      Piece.I, Piece.O, Piece.T]
            hold_piece := some Piece.I }
          { kind := Piece.O, cells := [(0, 1)] } := by
  have h := claim_C4 exStPc { kind := Piece.O, cells := [(0, 1)] } Piece.I
    [Piece.O, Piece.T, Piece.L, Piece.J, Piece.S, Piece.Z, Piece.I, Piece.O, Piece.T]
    (by decide)
  simpa using h

/-- C2. If a `think` call in clear-sequence mode with a suggestion pending
hits the provably-unsolvable outcome, that same call replaces the mode
with a fresh General instance built from the current snapshot (advanced by
its one seeding think request), leaves the pending-suggestion flag set,
and returns at least one General-mode work unit whenever the fresh
instance can produce one. -/
theorem claim_C2 (st : ModeSwitchedBot) (bot : PcLooper) (turn : Nat)
    (hm : st.mode = Mode.PcLoop bot) (hd : st.do_move = some turn)
    (hs : (bot.suggest_move).1 = PcSugRes.err true) :
    (st.think).2.1.mode = Mode.Normal ((BotState.new st.board st.options).think).2 ∧
    (st.think).2.1.do_move = some turn ∧
    (∀ t, ((BotState.new st.board st.options).think).1 = ThinkRes.ok t →
      (st.think).1 = [Task.NormalThink t]) := by
  rcases hsug : bot.suggest_move with ⟨r, bot1⟩
  rw [hsug] at hs
  simp at hs
  subst hs
  rcases hth : (BotState.new st.board st.options).think with ⟨r2, nb1⟩
  refine ⟨?_, ?_, ?_⟩
  · simp [ModeSwitchedBot.think, hm, hd, hsug, hth]
  · simp [ModeSwitchedBot.think, hm, hd, hsug, hth]
  · intro t ht
    simp at ht
    subst ht
    simp [ModeSwitchedBot.think, hm, hd, hsug, hth]

/-- Witness for C2: the sample clear-sequence coordinator with a pending
request and an unsolvable report fails over to General mode within the
call, keeps the pending flag, and emits the seeded think unit. -/
theorem claim_C2_witness :
    (({ exStPc with do_move := some 9 } : ModeSwitchedBot).think).2.1.mode =
      Mode.Normal ((BotState.new exStPc.board exStPc.options).think).2 ∧
    (({ exStPc with do_move := some 9 } : ModeSwitchedBot).think).2.1.do_move = some 9 ∧
    (({ exStPc with do_move := some 9 } : ModeSwitchedBot).think).1 =
      [Task.NormalThink 7] := by
  have h := claim_C2 { exStPc with do_move := some 9 }
    (PcLooper.new exBoardPc false 0 exPcOracle) 9 (by decide) rfl (by decide)
  exact ⟨h.1, h.2.1, h.2.2 7 (by decide)⟩

/-- One `BotState.think` request raises the outstanding count by one
exactly on `ok`, and leaves it alone on `err`. -/
lemma think_outstanding (bot : BotState) (r : ThinkRes) (bot1 : BotState)
    (h : bot.think = (r, bot1)) :
    bot1.outstanding_thinks =
      match r with
      | ThinkRes.ok _ => bot.outstanding_thinks + 1
      | ThinkRes.err _ => bot.outstanding_thinks := by
  cases hs : bot.script with
  | nil =>
    simp [BotState.think, hs] at h
    rcases h with ⟨h1, h2⟩
    subst h1; subst h2; simp
  | cons hd tl =>
    cases hd <;> simp [BotState.think, hs] at h <;>
      rcases h with ⟨h1, h2⟩ <;> subst h1 <;> subst h2 <;> simp

/-- `BotState.suggest_move` does not touch the outstanding count. -/
lemma suggest_outstanding (bot : BotState) :
    ((bot.suggest_move).2).outstanding_thinks = bot.outstanding_thinks := by
  cases hs : bot.suggests <;> simp [BotState.suggest_move, hs]

/-- Batch loop accounting: every emitted unit raises the outstanding count
by one, at most `n` units are emitted, the ceiling is preserved, and a
call that starts at or above the ceiling emits nothing. -/
lemma normalThinkLoop_spec (n : Nat) (bot : BotState) (threads : Nat) :
    ((ModeSwitchedBot.normalThinkLoop n bot threads).2).outstanding_thinks =
        bot.outstanding_thinks +
          ((ModeSwitchedBot.normalThinkLoop n bot threads).1).length ∧
    ((ModeSwitchedBot.normalThinkLoop n bot threads).1).length ≤ n ∧
    (bot.outstanding_thinks ≤ threads →
      ((ModeSwitchedBot.normalThinkLoop n bot threads).2).outstanding_thinks ≤ threads) ∧
    (bot.outstanding_thinks ≥ threads →
      (ModeSwitchedBot.normalThinkLoop n bot threads).1 = []) := by
  induction n generalizing bot with
  | zero => simp [ModeSwitchedBot.normalThinkLoop]
  | succ n ih =>
    by_cases hc : bot.outstanding_thinks ≥ threads
    · simp [ModeSwitchedBot.normalThinkLoop, hc]
    · rcases hth : bot.think with ⟨r, bot1⟩
      have hout := think_outstanding bot r bot1 hth
      cases r with
      | ok t =>
        obtain ⟨ih1, ih2, ih3, _⟩ := ih bot1
        simp only [ModeSwitchedBot.normalThinkLoop, if_neg hc, hth]
        simp at hout
        refine ⟨by simp [ih1, hout]; omega, by simpa using Nat.succ_le_succ ih2, ?_, ?_⟩
        · intro _
          exact ih3 (by omega)
        · intro hge
          exact absurd hge hc
      | err b =>
        cases b with
        | false =>
          simp only [ModeSwitchedBot.normalThinkLoop, if_neg hc, hth]
          simp [hout]
        | true =>
          obtain ⟨ih1, ih2, ih3, ih4⟩ := ih bot1
          simp only [ModeSwitchedBot.normalThinkLoop, if_neg hc, hth]
          simp at hout
          exact ⟨by omega, by omega, fun _ => ih3 (by omega), fun hge => absurd hge hc⟩

/-- A `think` call in General mode stays in General mode, keeps the
configuration, and obeys the batch and admission bounds. -/
lemma think_normal_spec (st : ModeSwitchedBot) (bot : BotState)
    (hm : st.mode = Mode.Normal bot) :
    ∃ bot2, (st.think).2.1.mode = Mode.Normal bot2 ∧
      (st.think).2.1.options = st.options ∧
      bot2.outstanding_thinks =
        bot.outstanding_thinks + ((st.think).1).length ∧
      ((st.think).1).length ≤ 10 ∧
      (bot.outstanding_thinks ≤ st.options.threads →
        bot2.outstanding_thinks ≤ st.options.threads) ∧
      (bot.outstanding_thinks ≥ st.options.threads → (st.think).1 = []) := by
  cases hd : st.do_move with
  | none =>
    obtain ⟨l1, l2, l3, l4⟩ := normalThinkLoop_spec 10 bot st.options.threads
    have e1 : (st.think).1 =
        (ModeSwitchedBot.normalThinkLoop 10 bot st.options.threads).1 := by
      simp [ModeSwitchedBot.think, hm, hd]
    have e2 : (st.think).2.1.mode =
        Mode.Normal (ModeSwitchedBot.normalThinkLoop 10 bot st.options.threads).2 ∧
        (st.think).2.1.options = st.options := by
      simp [ModeSwitchedBot.think, hm, hd]
    refine ⟨(ModeSwitchedBot.normalThinkLoop 10 bot st.options.threads).2,
      e2.1, e2.2, ?_, ?_, l3, ?_⟩
    · rw [e1]; exact l1
    · rw [e1]; exact l2
    · intro hge; rw [e1]; exact l4 hge
  | some turn =>
    rcases hsug : bot.suggest_move with ⟨res, bot1⟩
    have hso : bot1.outstanding_thinks = bot.outstanding_thinks := by
      have h0 := suggest_outstanding bot
      rw [hsug] at h0
      exact h0
    obtain ⟨l1, l2, l3, l4⟩ := normalThinkLoop_spec 10 bot1 st.options.threads
    have e1 : (st.think).1 =
        (ModeSwitchedBot.normalThinkLoop 10 bot1 st.options.threads).1 := by
      cases res <;> simp [ModeSwitchedBot.think, hm, hd, hsug]
    have e2 : (st.think).2.1.mode =
        Mode.Normal (ModeSwitchedBot.normalThinkLoop 10 bot1 st.options.threads).2 ∧
        (st.think).2.1.options = st.options := by
      cases res <;> simp [ModeSwitchedBot.think, hm, hd, hsug]
    refine ⟨(ModeSwitchedBot.normalThinkLoop 10 bot1 st.options.threads).2,
      e2.1, e2.2, ?_, ?_, ?_, ?_⟩
    · rw [e1, l1, hso]
    · rw [e1]; exact l2
    · intro hle
      exact l3 (by rw [hso]; exact hle)
    · intro hge
      rw [e1]
      exact l4 (by rw [hso]; exact hge)

/-- Iterated `think` calls with no reconciliation, starting in General mode
under the ceiling, keep the total of ever-outstanding units under the
ceiling. -/
lemma iterateThink_spec (n : Nat) (st : ModeSwitchedBot) (bot : BotState)
    (hm : st.mode = Mode.Normal bot)
    (hb : bot.outstanding_thinks ≤ st.options.threads) :
    ∃ bot2, ((ModeSwitchedBot.iterateThink n st).2).mode = Mode.Normal bot2 ∧
      ((ModeSwitchedBot.iterateThink n st).2).options = st.options ∧
      bot2.outstanding_thinks =
        bot.outstanding_thinks + ((ModeSwitchedBot.iterateThink n st).1).length ∧
      bot2.outstanding_thinks ≤ st.options.threads := by
  induction n generalizing st bot with
  | zero => exact ⟨bot, by simpa [ModeSwitchedBot.iterateThink] using hm,
      by simp [ModeSwitchedBot.iterateThink], by simp [ModeSwitchedBot.iterateThink], hb⟩
  | succ n ih =>
    obtain ⟨bot1, h1, h2, h3, _, h5, _⟩ := think_normal_spec st bot hm
    obtain ⟨bot2, g1, g2, g3, g4⟩ := ih (st.think).2.1 bot1 h1 (by rw [h2]; exact h5 hb)
    have eI1 : (ModeSwitchedBot.iterateThink (n + 1) st).1 =
        (st.think).1 ++ (ModeSwitchedBot.iterateThink n (st.think).2.1).1 := by
      simp [ModeSwitchedBot.iterateThink]
    have eI2 : (ModeSwitchedBot.iterateThink (n + 1) st).2 =
        (ModeSwitchedBot.iterateThink n (st.think).2.1).2 := by
      simp [ModeSwitchedBot.iterateThink]
    refine ⟨bot2, ?_, ?_, ?_, ?_⟩
    · rw [eI2]; exact g1
    · rw [eI2, g2, h2]
    · rw [eI1, List.length_append]
      omega
    · rw [h2] at g4
      exact g4

/-- C7. Admission control in General mode: a `think` call emits at most 10
work units, emits none when the outstanding count is at or above
`options.threads`, and across `n` repeated `think` calls with no
`task_complete` in between the number of units ever outstanding (initial
outstanding plus everything emitted) never exceeds `options.threads`. -/
theorem claim_C7 (st : ModeSwitchedBot) (bot : BotState) (n : Nat)
    (hm : st.mode = Mode.Normal bot)
    (hb : bot.outstanding_thinks ≤ st.options.threads) :
    ((st.think).1).length ≤ 10 ∧
    (bot.outstanding_thinks ≥ st.options.threads → (st.think).1 = []) ∧
    ((ModeSwitchedBot.iterateThink n st).1).length + bot.outstanding_thinks ≤
      st.options.threads := by
  obtain ⟨bot2, _, _, _, h4, _, h6⟩ := think_normal_spec st bot hm
  obtain ⟨bot3, _, _, g3, g4⟩ := iterateThink_spec n st bot hm hb
  exact ⟨h4, h6, by omega⟩

/-- Witness for C7: the sample General-mode coordinator (ceiling 2,
nothing outstanding) obeys all three bounds across five calls. -/
theorem claim_C7_witness :
    ((exStNormal.think).1).length ≤ 10 ∧
    ((BotState.new exBoard exOptions).outstanding_thinks ≥ exStNormal.options.threads →
      (exStNormal.think).1 = []) ∧
    ((ModeSwitchedBot.iterateThink 5 exStNormal).1).length +
        (BotState.new exBoard exOptions).outstanding_thinks ≤
      exStNormal.options.threads :=
  claim_C7 exStNormal (BotState.new exBoard exOptions) 5 (by decide) (by decide)

/-- A coordinator built with the clear-sequence strategy disabled. -/
def exStNoPc : ModeSwitchedBot := ModeSwitchedBot.new exBoard exOptionsNoPc none

/-- C8. When the options never enable the clear-sequence strategy
(`pcloop` is `none`), construction yields General mode, and every message,
`think` call and `task_complete` call both keeps the mode General and
leaves the (read-only) options intact — no step can ever switch into
clear-sequence mode. -/
theorem claim_C8 :
    (∀ (board : Board) (options : Options) (book : Option Nat),
      options.pcloop = none →
      (ModeSwitchedBot.new board options book).mode.isNormal = true) ∧
    (∀ (st : ModeSwitchedBot) (msg : BotMsg) (st1 : ModeSwitchedBot),
      st.options.pcloop = none → st.mode.isNormal = true →
      st.message msg = some st1 →
      st1.mode.isNormal = true ∧ st1.options = st.options) ∧
    (∀ (st : ModeSwitchedBot), st.mode.isNormal = true →
      (st.think).2.1.mode.isNormal = true ∧ (st.think).2.1.options = st.options) ∧
    (∀ (st : ModeSwitchedBot) (r : TaskResult), st.mode.isNormal = true →
      (st.task_complete r).mode.isNormal = true ∧
        (st.task_complete r).options = st.options) := by
  refine ⟨?_, ?_, ?_, ?_⟩
  · intro board options book hp
    simp [ModeSwitchedBot.new, hp, Mode.isNormal]
  · intro st msg st1 hp hn h
    cases hm : st.mode with
    | PcLoop bot => simp [hm, Mode.isNormal] at hn
    | Normal bot =>
      cases msg with
      | Reset f b2b combo =>
        simp [ModeSwitchedBot.message, hm] at h
        cases h <;> exact ⟨rfl, rfl⟩
      | NewPiece piece =>
        simp [ModeSwitchedBot.message, hm, hp] at h
        cases h <;> exact ⟨rfl, rfl⟩
      | SuggestMove i =>
        simp [ModeSwitchedBot.message] at h
        cases h <;> exact ⟨by simp [hm, Mode.isNormal], rfl⟩
      | PlayMove mv =>
        rcases hq : st.board.advance_queue with ⟨onext, b1⟩
        cases onext with
        | none => simp [ModeSwitchedBot.message, hq] at h
        | some next =>
          simp [ModeSwitchedBot.message, hq, hm, hp] at h
          cases h <;> exact ⟨rfl, rfl⟩
      | ForceAnalysisLine path =>
        simp [ModeSwitchedBot.message, hm] at h
        cases h <;> exact ⟨rfl, rfl⟩
  · intro st hn
    cases hm : st.mode with
    | PcLoop bot => simp [hm, Mode.isNormal] at hn
    | Normal bot =>
      obtain ⟨bot2, h1, h2, _⟩ := think_normal_spec st bot hm
      exact ⟨by simp [h1, Mode.isNormal], h2⟩
  · intro st r hn
    cases hm : st.mode with
    | PcLoop bot => simp [hm, Mode.isNormal] at hn
    | Normal bot =>
      cases r <;> simp [ModeSwitchedBot.task_complete, hm, Mode.isNormal]

/-- Witness for C8: with the strategy disabled, the concrete sample starts
General and stays General (and keeps its options) through a message, a
`think` call and a `task_complete` call. -/
theorem claim_C8_witness :
    (ModeSwitchedBot.new exBoard exOptionsNoPc none).mode.isNormal = true ∧
    (∃ st1, exStNoPc.message (BotMsg.NewPiece Piece.S) = some st1 ∧
      st1.mode.isNormal = true ∧ st1.options = exStNoPc.options) ∧
    ((exStNoPc.think).2.1.mode.isNormal = true ∧
      (exStNoPc.think).2.1.options = exStNoPc.options) ∧
    ((exStNoPc.task_complete (TaskResult.NormalThink 0)).mode.isNormal = true ∧
      (exStNoPc.task_complete (TaskResult.NormalThink 0)).options = exStNoPc.options) := by
  refine ⟨claim_C8.1 exBoard exOptionsNoPc none rfl, ?_, claim_C8.2.2.1 exStNoPc (by decide),
    claim_C8.2.2.2 exStNoPc (TaskResult.NormalThink 0) (by decide)⟩
  obtain ⟨hmn, hop⟩ :=
    claim_C8.2.1 exStNoPc (BotMsg.NewPiece Piece.S) _ rfl (by decide) rfl
  exact ⟨_, rfl, hmn, hop⟩

end Modes
